import Mathlib

/-!
# Fish-tank VR off-axis projection core: a shallow embedding

This file models the numerical core of the head-tracked ("fish-tank VR")
renderer: the screen-quad model and generalized off-axis projection builders
(`src/math/quadReprojection.ts`, `src/render/offAxisCamera.ts`), the
exponential smoothing filter (`src/utils/smoothing.ts`), and the head/eye
position estimators (`FaceTracker` in `src/main.ts` and the
`FaceTracker.processResults` variant).

Modelling conventions:
* JavaScript `number` is modelled as an exact rational (`ℚ`).  All the code's
  arithmetic on the paths studied here is `+ - * /` on finite values, which
  is exact over `ℚ`.
* `Math.sqrt` is modelled by `Rat.sqrt`, which agrees with the real square
  root whenever the argument is the square of a rational.  Every call site in
  the modelled code that a theorem below evaluates applies it to a perfect
  rational square (lengths of axis-aligned screen-basis vectors, and the
  concrete landmark distances used in the theorems).
* Where IEEE special values are semantically relevant (the depth estimate's
  division by a possibly-zero inter-pupillary distance), the computation is
  modelled step by step on `JsNum`, a rational extended with `+∞`, `-∞` and
  `NaN`, with JavaScript's division / `Math.min` / `Math.max` semantics.
* Time (`performance.now()`) is a rational number of milliseconds supplied
  with each frame; the two `performance.now()` calls inside one frame
  callback are modelled as the same instant.
-/

/-- 3D vector over exact rationals (models THREE.Vector3). -/
structure Vec3 where
  x : ℚ
  y : ℚ
  z : ℚ
deriving DecidableEq, Repr

namespace Vec3

/-- `THREE.Vector3.sub` / `subVectors`. -/
def sub (a b : Vec3) : Vec3 := ⟨a.x - b.x, a.y - b.y, a.z - b.z⟩

/-- `THREE.Vector3.dot`. -/
def dot (a b : Vec3) : ℚ := a.x * b.x + a.y * b.y + a.z * b.z

/-- `THREE.Vector3.crossVectors`. -/
def cross (a b : Vec3) : Vec3 :=
  ⟨a.y * b.z - a.z * b.y, a.z * b.x - a.x * b.z, a.x * b.y - a.y * b.x⟩

/-- `THREE.Vector3.negate`. -/
def neg (a : Vec3) : Vec3 := ⟨-a.x, -a.y, -a.z⟩

/-- `THREE.Vector3.lengthSq`. -/
def lengthSq (a : Vec3) : ℚ := a.x * a.x + a.y * a.y + a.z * a.z

/-- `THREE.Vector3.length`: `Math.sqrt(lengthSq)`, modelled by `Rat.sqrt`
(exact on the perfect rational squares arising from axis-aligned quads). -/
def length (a : Vec3) : ℚ := Rat.sqrt a.lengthSq

/-- `THREE.Vector3.divideScalar`. -/
def divScalar (a : Vec3) (s : ℚ) : Vec3 := ⟨a.x / s, a.y / s, a.z / s⟩

/-- `THREE.Vector3.normalize`: `divideScalar(length() || 1)` (a zero-length
vector is divided by 1, i.e. left unchanged). -/
def normalize (a : Vec3) : Vec3 :=
  a.divScalar (if a.length = 0 then 1 else a.length)

end Vec3

/-- 4x4 matrix, entries named row-major exactly as the arguments of
`THREE.Matrix4.set(n11, n12, ..., n44)`. -/
structure Matrix4 where
  n11 : ℚ
  n12 : ℚ
  n13 : ℚ
  n14 : ℚ
  n21 : ℚ
  n22 : ℚ
  n23 : ℚ
  n24 : ℚ
  n31 : ℚ
  n32 : ℚ
  n33 : ℚ
  n34 : ℚ
  n41 : ℚ
  n42 : ℚ
  n43 : ℚ
  n44 : ℚ
deriving DecidableEq, Repr

namespace Matrix4

/-- The zero matrix (what `THREE.Matrix4.invert` produces for a singular
matrix). -/
def zero : Matrix4 := ⟨0, 0, 0, 0, 0, 0, 0, 0, 0, 0, 0, 0, 0, 0, 0, 0⟩

/-- The identity matrix. -/
def identity : Matrix4 := ⟨1, 0, 0, 0, 0, 1, 0, 0, 0, 0, 1, 0, 0, 0, 0, 1⟩

/-- `THREE.Matrix4.makeTranslation x y z`. -/
def makeTranslation (x y z : ℚ) : Matrix4 :=
  ⟨1, 0, 0, x, 0, 1, 0, y, 0, 0, 1, z, 0, 0, 0, 1⟩

/-- `THREE.Matrix4.multiplyMatrices a b` (matrix product `a * b`). -/
def mul (a b : Matrix4) : Matrix4 where
  n11 := a.n11 * b.n11 + a.n12 * b.n21 + a.n13 * b.n31 + a.n14 * b.n41
  n12 := a.n11 * b.n12 + a.n12 * b.n22 + a.n13 * b.n32 + a.n14 * b.n42
  n13 := a.n11 * b.n13 + a.n12 * b.n23 + a.n13 * b.n33 + a.n14 * b.n43
  n14 := a.n11 * b.n14 + a.n12 * b.n24 + a.n13 * b.n34 + a.n14 * b.n44
  n21 := a.n21 * b.n11 + a.n22 * b.n21 + a.n23 * b.n31 + a.n24 * b.n41
  n22 := a.n21 * b.n12 + a.n22 * b.n22 + a.n23 * b.n32 + a.n24 * b.n42
  n23 := a.n21 * b.n13 + a.n22 * b.n23 + a.n23 * b.n33 + a.n24 * b.n43
  n24 := a.n21 * b.n14 + a.n22 * b.n24 + a.n23 * b.n34 + a.n24 * b.n44
  n31 := a.n31 * b.n11 + a.n32 * b.n21 + a.n33 * b.n31 + a.n34 * b.n41
  n32 := a.n31 * b.n12 + a.n32 * b.n22 + a.n33 * b.n32 + a.n34 * b.n42
  n33 := a.n31 * b.n13 + a.n32 * b.n23 + a.n33 * b.n33 + a.n34 * b.n43
  n34 := a.n31 * b.n14 + a.n32 * b.n24 + a.n33 * b.n34 + a.n34 * b.n44
  n41 := a.n41 * b.n11 + a.n42 * b.n21 + a.n43 * b.n31 + a.n44 * b.n41
  n42 := a.n41 * b.n12 + a.n42 * b.n22 + a.n43 * b.n32 + a.n44 * b.n42
  n43 := a.n41 * b.n13 + a.n42 * b.n23 + a.n43 * b.n33 + a.n44 * b.n43
  n44 := a.n41 * b.n14 + a.n42 * b.n24 + a.n43 * b.n34 + a.n44 * b.n44

/-- 3x3 determinant helper for the cofactor expansion. -/
def det3 (a b c d e f g h i : ℚ) : ℚ :=
  a * (e * i - f * h) - b * (d * i - f * g) + c * (d * h - e * g)

/-- Determinant of a 4x4 matrix (cofactor expansion along the first row). -/
def det (m : Matrix4) : ℚ :=
  m.n11 * det3 m.n22 m.n23 m.n24 m.n32 m.n33 m.n34 m.n42 m.n43 m.n44
    - m.n12 * det3 m.n21 m.n23 m.n24 m.n31 m.n33 m.n34 m.n41 m.n43 m.n44
    + m.n13 * det3 m.n21 m.n22 m.n24 m.n31 m.n32 m.n34 m.n41 m.n42 m.n44
    - m.n14 * det3 m.n21 m.n22 m.n23 m.n31 m.n32 m.n33 m.n41 m.n42 m.n43

/-- `THREE.Matrix4.invert`: adjugate over determinant, except that a singular
matrix is replaced by the all-zero matrix (exactly Three.js's behaviour when
`det === 0`).  Over `ℚ` the cofactor formulas used by Three.js compute the
exact adjugate. -/
def invert (m : Matrix4) : Matrix4 :=
  let dt := m.det
  if dt = 0 then zero
  else
    { n11 := det3 m.n22 m.n23 m.n24 m.n32 m.n33 m.n34 m.n42 m.n43 m.n44 / dt
      n12 := -det3 m.n12 m.n13 m.n14 m.n32 m.n33 m.n34 m.n42 m.n43 m.n44 / dt
      n13 := det3 m.n12 m.n13 m.n14 m.n22 m.n23 m.n24 m.n42 m.n43 m.n44 / dt
      n14 := -det3 m.n12 m.n13 m.n14 m.n22 m.n23 m.n24 m.n32 m.n33 m.n34 / dt
      n21 := -det3 m.n21 m.n23 m.n24 m.n31 m.n33 m.n34 m.n41 m.n43 m.n44 / dt
      n22 := det3 m.n11 m.n13 m.n14 m.n31 m.n33 m.n34 m.n41 m.n43 m.n44 / dt
      n23 := -det3 m.n11 m.n13 m.n14 m.n21 m.n23 m.n24 m.n41 m.n43 m.n44 / dt
      n24 := det3 m.n11 m.n13 m.n14 m.n21 m.n23 m.n24 m.n31 m.n33 m.n34 / dt
      n31 := det3 m.n21 m.n22 m.n24 m.n31 m.n32 m.n34 m.n41 m.n42 m.n44 / dt
      n32 := -det3 m.n11 m.n12 m.n14 m.n31 m.n32 m.n34 m.n41 m.n42 m.n44 / dt
      n33 := det3 m.n11 m.n12 m.n14 m.n21 m.n22 m.n24 m.n41 m.n42 m.n44 / dt
      n34 := -det3 m.n11 m.n12 m.n14 m.n21 m.n22 m.n24 m.n31 m.n32 m.n34 / dt
      n41 := -det3 m.n21 m.n22 m.n23 m.n31 m.n32 m.n33 m.n41 m.n42 m.n43 / dt
      n42 := det3 m.n11 m.n12 m.n13 m.n31 m.n32 m.n33 m.n41 m.n42 m.n43 / dt
      n43 := -det3 m.n11 m.n12 m.n13 m.n21 m.n22 m.n23 m.n41 m.n42 m.n43 / dt
      n44 := det3 m.n11 m.n12 m.n13 m.n21 m.n22 m.n23 m.n31 m.n32 m.n33 / dt }

end Matrix4

/-- The slice of `THREE.PerspectiveCamera` written by the projection
builders: the explicit view/world matrices, projection matrix, their
inverses, the auto-update flag and the reference position. -/
structure Camera where
  matrixAutoUpdate : Bool
  matrixWorld : Matrix4
  matrixWorldInverse : Matrix4
  projectionMatrix : Matrix4
  projectionMatrixInverse : Matrix4
  position : Vec3
deriving DecidableEq, Repr

/-- `CalibrationParams` (src/math/quadReprojection.ts, src/render/offAxisCamera.ts). -/
structure CalibrationParams where
  screenWidthCm : ℚ
  screenHeightCm : ℚ
  viewerDistanceCm : ℚ
  near : ℚ
  far : ℚ
deriving DecidableEq, Repr

/-- `EyePosition` (centimetres, relative to screen centre). -/
structure EyePosition where
  x : ℚ
  y : ℚ
  z : ℚ
deriving DecidableEq, Repr

/-- `ScreenQuad`: bottom-left, bottom-right, top-left corners in metres. -/
structure ScreenQuad where
  pa : Vec3
  pb : Vec3
  pc : Vec3
deriving DecidableEq, Repr

/-- The corner geometry computed by `buildScreenQuad` (both copies):
screen centre at the origin, screen plane at z = 0, cm→m conversion
by `/ 100`. -/
def screenQuadOf (widthCm heightCm : ℚ) : ScreenQuad :=
  let w := widthCm / 100
  let h := heightCm / 100
  { pa := ⟨-w / 2, -h / 2, 0⟩
    pb := ⟨w / 2, -h / 2, 0⟩
    pc := ⟨-w / 2, h / 2, 0⟩ }

/-- The uncached `buildScreenQuad` of the second quadReprojection copy and
of `updateOffAxisProjection`'s inlined corners. -/
def buildScreenQuad (calibration : CalibrationParams) : ScreenQuad :=
  screenQuadOf calibration.screenWidthCm calibration.screenHeightCm

/-- The module-level cache of the first quadReprojection copy:
`_cachedCalibration` and `_cachedScreenQuad` are both `null` or both set. -/
def QuadCache := Option (CalibrationParams × ScreenQuad)

/-- The cached `buildScreenQuad` (first quadReprojection copy): returns the
cached instance when both cached width and height equal the requested ones,
otherwise recomputes the corners and stores a copy of the calibration with
the new quad. -/
def buildScreenQuadCached (calibration : CalibrationParams) (cache : QuadCache) :
    ScreenQuad × QuadCache :=
  match cache with
  | some (cachedCal, cachedQuad) =>
    if cachedCal.screenWidthCm = calibration.screenWidthCm ∧
        cachedCal.screenHeightCm = calibration.screenHeightCm then
      (cachedQuad, some (cachedCal, cachedQuad))
    else
      let quad := screenQuadOf calibration.screenWidthCm calibration.screenHeightCm
      (quad, some (calibration, quad))
  | none =>
    let quad := screenQuadOf calibration.screenWidthCm calibration.screenHeightCm
    (quad, some (calibration, quad))

/-- Eye position converted from centimetres to metres (`pe`). -/
def peOf (eyePos : EyePosition) : Vec3 := ⟨eyePos.x / 100, eyePos.y / 100, eyePos.z / 100⟩

/-- Screen right axis `vr = normalize(pb - pa)`. -/
def vrOf (screen : ScreenQuad) : Vec3 := (screen.pb.sub screen.pa).normalize

/-- Screen up axis `vu = normalize(pc - pa)`. -/
def vuOf (screen : ScreenQuad) : Vec3 := (screen.pc.sub screen.pa).normalize

/-- Screen normal before the viewer-facing flip: `normalize(cross(vr, vu))`. -/
def vn0Of (screen : ScreenQuad) : Vec3 := ((vrOf screen).cross (vuOf screen)).normalize

/-- Screen normal after the flip that makes it face the viewer:
negated when `dot(vn, pe - pa) < 0`. -/
def vnOf (screen : ScreenQuad) (pe : Vec3) : Vec3 :=
  if (vn0Of screen).dot (pe.sub screen.pa) < 0 then (vn0Of screen).neg else vn0Of screen

/-- Perpendicular distance from the eye to the screen plane,
`d = -dot(vn, pa - pe)`. -/
def dOf (screen : ScreenQuad) (pe : Vec3) : ℚ :=
  -((vnOf screen pe).dot (screen.pa.sub pe))

/-- Near-plane frustum bound `l = dot(vr, pa-pe) * near / d`. -/
def lOf (screen : ScreenQuad) (pe : Vec3) (near d : ℚ) : ℚ :=
  (vrOf screen).dot (screen.pa.sub pe) * near / d

/-- Near-plane frustum bound `r = dot(vr, pb-pe) * near / d`. -/
def rOf (screen : ScreenQuad) (pe : Vec3) (near d : ℚ) : ℚ :=
  (vrOf screen).dot (screen.pb.sub pe) * near / d

/-- Near-plane frustum bound `b = dot(vu, pa-pe) * near / d`. -/
def bOf (screen : ScreenQuad) (pe : Vec3) (near d : ℚ) : ℚ :=
  (vuOf screen).dot (screen.pa.sub pe) * near / d

/-- Near-plane frustum bound `t = dot(vu, pc-pe) * near / d`. -/
def tOf (screen : ScreenQuad) (pe : Vec3) (near d : ℚ) : ℚ :=
  (vuOf screen).dot (screen.pc.sub pe) * near / d

/-- The asymmetric-frustum projection matrix assembled from
`(l, r, b, t, near, far)` exactly as both builders assemble it. -/
def projMatrixOf (l r b t near far : ℚ) : Matrix4 :=
  let x := 2 * near / (r - l)
  let y := 2 * near / (t - b)
  let a := (r + l) / (r - l)
  let bv := (t + b) / (t - b)
  let c := -(far + near) / (far - near)
  let dv := -(2 * far * near) / (far - near)
  ⟨x, 0, a, 0,
   0, y, bv, 0,
   0, 0, c, dv,
   0, 0, -1, 0⟩

/-- The view matrix of `updateQuadReprojection`: rows are the camera right,
up and minus-forward axes with translations `-axis·pe` (`forward = -vn`). -/
def viewMatrixQuadOf (vr vu vn pe : Vec3) : Matrix4 :=
  let cameraForward := vn.neg
  let cameraRight := vr
  let cameraUp := vu
  ⟨cameraRight.x, cameraRight.y, cameraRight.z, -(cameraRight.dot pe),
   cameraUp.x, cameraUp.y, cameraUp.z, -(cameraUp.dot pe),
   -cameraForward.x, -cameraForward.y, -cameraForward.z, cameraForward.dot pe,
   0, 0, 0, 1⟩

/-- `updateQuadReprojection` (second copy in src/math/quadReprojection.ts):
builds the quad, basis, and eye-to-plane distance `d`; skips the frame
(camera returned unchanged) when `d <= 0` (or, in the source, non-finite —
vacuous over exact rationals); otherwise installs the projection and view
matrices, their inverses, the eye position, and disables auto-update. -/
def updateQuadReprojection (camera : Camera) (eyePos : EyePosition)
    (calibration : CalibrationParams) : Camera :=
  let screen := buildScreenQuad calibration
  let pe := peOf eyePos
  let vr := vrOf screen
  let vu := vuOf screen
  let vn := vnOf screen pe
  let d := dOf screen pe
  if d ≤ 0 then camera
  else
    let near := calibration.near
    let far := calibration.far
    let l := lOf screen pe near d
    let r := rOf screen pe near d
    let b := bOf screen pe near d
    let t := tOf screen pe near d
    let projectionMatrix := projMatrixOf l r b t near far
    let viewMatrix := viewMatrixQuadOf vr vu vn pe
    { matrixAutoUpdate := false
      matrixWorldInverse := viewMatrix
      matrixWorld := viewMatrix.invert
      projectionMatrix := projectionMatrix
      projectionMatrixInverse := projectionMatrix.invert
      position := pe }

/-- The view matrix of `updateOffAxisProjection`
(src/render/offAxisCamera.ts): basis matrix with columns right / up /
minus-forward, multiplied by the translation to `-pe`. -/
def viewMatrixOffAxisOf (vr vu vn pe : Vec3) : Matrix4 :=
  let cameraRight := vr
  let cameraUp := vu
  let cameraForward := vn.neg
  let basis : Matrix4 :=
    ⟨cameraRight.x, cameraUp.x, -cameraForward.x, 0,
     cameraRight.y, cameraUp.y, -cameraForward.y, 0,
     cameraRight.z, cameraUp.z, -cameraForward.z, 0,
     0, 0, 0, 1⟩
  basis.mul (Matrix4.makeTranslation (-pe.x) (-pe.y) (-pe.z))

/-- `updateOffAxisProjection` (src/render/offAxisCamera.ts): same corner
construction, basis, flip and `d <= 0` skip as `updateQuadReprojection`
(the non-finite check is again vacuous over `ℚ`), with its own view-matrix
construction. -/
def updateOffAxisProjection (camera : Camera) (eyePos : EyePosition)
    (calibration : CalibrationParams) : Camera :=
  let screen := buildScreenQuad calibration
  let pe := peOf eyePos
  let vr := vrOf screen
  let vu := vuOf screen
  let vn := vnOf screen pe
  let d := dOf screen pe
  if d ≤ 0 then camera
  else
    let near := calibration.near
    let far := calibration.far
    let l := lOf screen pe near d
    let r := rOf screen pe near d
    let b := bOf screen pe near d
    let t := tOf screen pe near d
    let projectionMatrix := projMatrixOf l r b t near far
    let viewMatrix := viewMatrixOffAxisOf vr vu vn pe
    { matrixAutoUpdate := false
      matrixWorldInverse := viewMatrix
      matrixWorld := viewMatrix.invert
      projectionMatrix := projectionMatrix
      projectionMatrixInverse := projectionMatrix.invert
      position := pe }

/-! ## Exponential smoothing filter (src/utils/smoothing.ts) -/

/-- `EMAFilter` state: the clamped smoothing coefficient and the accumulator,
`null` (`none`) until the first sample. -/
structure EMAFilter where
  alpha : ℚ
  value : Option ℚ
deriving DecidableEq, Repr

namespace EMAFilter

/-- The constructor `new EMAFilter(alpha)`: clamps `alpha` into `[0, 1]`
(`Math.max(0, Math.min(1, alpha))`) and starts uninitialized. -/
def mk' (alpha : ℚ) : EMAFilter := ⟨max 0 (min 1 alpha), none⟩

/-- `EMAFilter.update`: the first sample is stored and returned verbatim;
afterwards `value' = alpha*newValue + (1-alpha)*value` is stored and
returned. -/
def update (f : EMAFilter) (newValue : ℚ) : ℚ × EMAFilter :=
  match f.value with
  | none => (newValue, { f with value := some newValue })
  | some v =>
    let v' := f.alpha * newValue + (1 - f.alpha) * v
    (v', { f with value := some v' })

/-- `EMAFilter.reset`: clears the accumulator back to `null`. -/
def reset (f : EMAFilter) : EMAFilter := { f with value := none }

/-- `EMAFilter.getValue`: returns the accumulator (`null` when
uninitialized). -/
def getValue (f : EMAFilter) : Option ℚ := f.value

/-- `EMAFilter.setAlpha`: clamps into `[0, 1]`, leaves the accumulator. -/
def setAlpha (f : EMAFilter) (alpha : ℚ) : EMAFilter :=
  { f with alpha := max 0 (min 1 alpha) }

end EMAFilter

/-- One call against an `EMAFilter` instance, for reasoning about arbitrary
histories of the mutable object. -/
inductive EMAOp where
  | update (v : ℚ)
  | reset
  | setAlpha (a : ℚ)
deriving DecidableEq, Repr

/-- Apply one call to the filter state (the value returned by `update` is
dropped; only the state evolution matters for history arguments). -/
def EMAFilter.step (f : EMAFilter) (op : EMAOp) : EMAFilter :=
  match op with
  | .update v => (f.update v).2
  | .reset => f.reset
  | .setAlpha a => f.setAlpha a

/-- Run a history of calls from a given state. -/
def EMAFilter.run (f : EMAFilter) : List EMAOp → EMAFilter
  | [] => f
  | op :: rest => (f.step op).run rest

/-- Whether a history leaves the filter holding a sample: an `update` not
followed by any `reset`, starting from a state that does (`init = true`) or
does not already hold one. -/
def updatedSinceReset (init : Bool) : List EMAOp → Bool
  | [] => init
  | op :: rest =>
    updatedSinceReset
      (match op with
       | .update _ => true
       | .reset => false
       | .setAlpha _ => init)
      rest

/-! ## JavaScript special-value arithmetic for the depth estimate -/

/-- A JavaScript `number` as needed by the depth-estimate pipeline: a finite
rational, `+Infinity`, `-Infinity`, or `NaN`.  (The distinction between
`+0` and `-0` is not modelled; the one division this file evaluates has a
non-negative divisor, for which JavaScript's `x / 0` with `x > 0` is
`+Infinity`.) -/
inductive JsNum where
  | fin (q : ℚ)
  | posInf
  | negInf
  | nan
deriving DecidableEq, Repr

namespace JsNum

/-- JavaScript division, restricted to the sign conventions of
non-negative-zero operands. -/
def div : JsNum → JsNum → JsNum
  | fin a, fin b =>
    if b = 0 then
      if 0 < a then posInf else if a < 0 then negInf else nan
    else fin (a / b)
  | fin _, posInf => fin 0
  | fin _, negInf => fin 0
  | posInf, fin b => if 0 ≤ b then posInf else negInf
  | negInf, fin b => if 0 ≤ b then negInf else posInf
  | posInf, posInf => nan
  | posInf, negInf => nan
  | negInf, posInf => nan
  | negInf, negInf => nan
  | nan, _ => nan
  | _, nan => nan

/-- JavaScript multiplication on the modelled values. -/
def mul : JsNum → JsNum → JsNum
  | fin a, fin b => fin (a * b)
  | fin a, posInf => if 0 < a then posInf else if a < 0 then negInf else nan
  | fin a, negInf => if 0 < a then negInf else if a < 0 then posInf else nan
  | posInf, fin b => if 0 < b then posInf else if b < 0 then negInf else nan
  | negInf, fin b => if 0 < b then negInf else if b < 0 then posInf else nan
  | posInf, posInf => posInf
  | posInf, negInf => negInf
  | negInf, posInf => negInf
  | negInf, negInf => posInf
  | nan, _ => nan
  | _, nan => nan

/-- `Math.min` (NaN-propagating, infinities ordered as usual). -/
def jmin : JsNum → JsNum → JsNum
  | fin a, fin b => fin (min a b)
  | fin a, posInf => fin a
  | fin _, negInf => negInf
  | posInf, fin b => fin b
  | negInf, fin _ => negInf
  | posInf, posInf => posInf
  | posInf, negInf => negInf
  | negInf, posInf => negInf
  | negInf, negInf => negInf
  | nan, _ => nan
  | _, nan => nan

/-- `Math.max` (NaN-propagating, infinities ordered as usual). -/
def jmax : JsNum → JsNum → JsNum
  | fin a, fin b => fin (max a b)
  | fin _, posInf => posInf
  | fin a, negInf => fin a
  | posInf, fin _ => posInf
  | negInf, fin b => fin b
  | posInf, posInf => posInf
  | posInf, negInf => posInf
  | negInf, posInf => posInf
  | negInf, negInf => negInf
  | nan, _ => nan
  | _, nan => nan

end JsNum

/-- The depth estimate of `FaceTracker.processLandmarks` (src/main.ts),
computed with JavaScript special-value semantics:
`Math.max(30, Math.min(150, (referenceIPD / ipdNormalized) * referenceDistance))`
with `referenceIPD = 0.1` and `referenceDistance = 60`. -/
def zCmJs (ipdNormalized : ℚ) : JsNum :=
  JsNum.jmax (.fin 30)
    (JsNum.jmin (.fin 150)
      (JsNum.mul (JsNum.div (.fin (1 / 10)) (.fin ipdNormalized)) (.fin 60)))

/-- The same depth estimate as a rational: the clamp always yields a finite
value (proved below), extracted here with a default that is never reached. -/
def computeZCm (ipdNormalized : ℚ) : ℚ :=
  match zCmJs ipdNormalized with
  | .fin q => q
  | _ => 0

/-! ## Head/eye position estimator (FaceTracker, src/main.ts) -/

/-- A normalized 2D landmark (`NormalizedLandmark`); only `x` and `y` are
read by `processLandmarks`. -/
structure Landmark where
  x : ℚ
  y : ℚ
deriving DecidableEq, Repr

/-- A landmark frame: the tracker indexes `landmarks[33]`, `landmarks[263]`,
`landmarks[4]`, so the frame is modelled as an index-to-landmark map. -/
def Landmarks := ℕ → Landmark

/-- `HeadPosition` (src/main.ts variant): position in centimetres plus the
heuristic rotation estimates. -/
structure HeadPosition where
  x : ℚ
  y : ℚ
  z : ℚ
  rotationX : ℚ
  rotationY : ℚ
  rotationZ : ℚ
deriving DecidableEq, Repr

/-- Mutable `FaceTracker` state (src/main.ts): smoothing coefficient and
per-axis accumulators (initialized to 0), recenter offsets, the last valid
position, and the instant the face was first reported lost (0 = not lost). -/
structure TrackerState where
  smoothingAlpha : ℚ
  smoothedX : ℚ
  smoothedY : ℚ
  smoothedZ : ℚ
  offsetX : ℚ
  offsetY : ℚ
  offsetZ : ℚ
  lastValidPosition : Option HeadPosition
  faceLostTime : ℚ
deriving DecidableEq, Repr

/-- The fields as initialized by the `FaceTracker` class body in
src/main.ts: `smoothingAlpha = 0.7`, all accumulators and offsets 0, no
valid position yet, `faceLostTime = 0`. -/
def TrackerState.init : TrackerState :=
  { smoothingAlpha := 7 / 10
    smoothedX := 0
    smoothedY := 0
    smoothedZ := 0
    offsetX := 0
    offsetY := 0
    offsetZ := 0
    lastValidPosition := none
    faceLostTime := 0 }

/-- `FaceTracker.processLandmarks` (src/main.ts).  `tanHalfFov` stands for
the constant `Math.tan((60 * Math.PI / 180) / 2)` and `atan2` for
`Math.atan2` — both irrational-valued library calls whose exact double
values are irrelevant to the claims, so the model is parametric in them.
The inter-pupillary distance is `Math.sqrt(dx^2 + dy^2)`, modelled by
`Rat.sqrt` (exact on the perfect squares used by the theorems below), and
the depth estimate uses the `JsNum` pipeline `computeZCm`, faithful to the
division-by-zero behaviour. -/
def processLandmarks (tanHalfFov : ℚ) (atan2 : ℚ → ℚ → ℚ)
    (s : TrackerState) (landmarks : Landmarks) : HeadPosition × TrackerState :=
  let leftEye := landmarks 33
  let rightEye := landmarks 263
  let noseTip := landmarks 4
  let faceCenterX := (leftEye.x + rightEye.x + noseTip.x) / 3
  let faceCenterY := (leftEye.y + rightEye.y + noseTip.y) / 3
  let ipdNormalized :=
    Rat.sqrt ((rightEye.x - leftEye.x) ^ 2 + (rightEye.y - leftEye.y) ^ 2)
  let zCm := computeZCm ipdNormalized
  let visibleWidthCm := 2 * zCm * tanHalfFov
  let xCm := (faceCenterX - 1 / 2) * visibleWidthCm
  let yCm := (1 / 2 - faceCenterY) * visibleWidthCm
  let smoothedX := s.smoothingAlpha * xCm + (1 - s.smoothingAlpha) * s.smoothedX
  let smoothedY := s.smoothingAlpha * yCm + (1 - s.smoothingAlpha) * s.smoothedY
  let smoothedZ := s.smoothingAlpha * zCm + (1 - s.smoothingAlpha) * s.smoothedZ
  let rotationY := (faceCenterX - 1 / 2) * (1 / 2)
  let rotationX := (1 / 2 - faceCenterY) * (3 / 10)
  let rotationZ := atan2 (rightEye.y - leftEye.y) (rightEye.x - leftEye.x) * (1 / 2)
  let pos : HeadPosition :=
    { x := smoothedX - s.offsetX
      y := smoothedY - s.offsetY
      z := smoothedZ - s.offsetZ
      rotationX := rotationX
      rotationY := rotationY
      rotationZ := rotationZ }
  (pos, { s with smoothedX := smoothedX, smoothedY := smoothedY, smoothedZ := smoothedZ })

/-- One invocation of the `detect` callback (src/main.ts
`FaceTracker.startTracking`): `now` is `performance.now()` and `det` the
detection result (`some landmarks` when `results.faceLandmarks` is
non-empty).  Returns the argument passed to `callbacks.onResults` and the
new tracker state. -/
def detectStep (tanHalfFov : ℚ) (atan2 : ℚ → ℚ → ℚ) (s : TrackerState)
    (now : ℚ) (det : Option Landmarks) : Option HeadPosition × TrackerState :=
  match det with
  | some landmarks =>
    let (position, s') := processLandmarks tanHalfFov atan2 s landmarks
    (some position, { s' with lastValidPosition := some position, faceLostTime := 0 })
  | none =>
    let faceLostTime := if s.faceLostTime = 0 then now else s.faceLostTime
    let s' := { s with faceLostTime := faceLostTime }
    let timeSinceLost := now - faceLostTime
    match s.lastValidPosition with
    | some p => if timeSinceLost < 500 then (some p, s') else (none, s')
    | none => (none, s')

/-- A frame fed to the detect loop: its `performance.now()` timestamp and
the detection result. -/
structure Frame where
  now : ℚ
  det : Option Landmarks

/-- Run the detect loop over a list of frames. -/
def detectRun (tanHalfFov : ℚ) (atan2 : ℚ → ℚ → ℚ)
    (s : TrackerState) : List Frame → TrackerState
  | [] => s
  | fr :: rest =>
    detectRun tanHalfFov atan2 (detectStep tanHalfFov atan2 s fr.now fr.det).2 rest

/-- `FaceTracker.recenter` (src/main.ts): captures the last valid position
as the offset triple, or does nothing when no valid position exists. -/
def TrackerState.recenter (s : TrackerState) : TrackerState :=
  match s.lastValidPosition with
  | some p => { s with offsetX := p.x, offsetY := p.y, offsetZ := p.z }
  | none => s

/-! ## The second estimator variant (`FaceTracker.processResults`) -/

/-- `HeadPosition` of the `processResults` variant (src/math/offAxis.ts):
position only. -/
structure HeadPosition3 where
  x : ℚ
  y : ℚ
  z : ℚ
deriving DecidableEq, Repr

/-- Mutable state of the `processResults`-variant `FaceTracker`: recenter
offsets, scale factors and the last valid position (no timestamps — this
variant has no 500 ms grace window). -/
structure P1State where
  offsetX : ℚ
  offsetY : ℚ
  offsetZ : ℚ
  scaleX : ℚ
  scaleY : ℚ
  scaleZ : ℚ
  lastValidHeadPos : Option HeadPosition3
deriving DecidableEq, Repr

/-- Initial field values of the `processResults`-variant tracker. -/
def P1State.init : P1State :=
  { offsetX := 0, offsetY := 0, offsetZ := 0
    scaleX := 1, scaleY := 1, scaleZ := 1
    lastValidHeadPos := none }

/-- `FaceTracker.processResults` on a frame that does contain a face:
centre of the eye landmarks, eye distance as depth proxy, linear map to
centimetres, recenter offsets, and a final `[30, 150]` clamp on z. -/
def processResultsFace (s : P1State) (landmarks : Landmarks) :
    HeadPosition3 × P1State :=
  let leftEye := landmarks 33
  let rightEye := landmarks 263
  let eyeCenterX := (leftEye.x + rightEye.x) / 2
  let eyeCenterY := (leftEye.y + rightEye.y) / 2
  let eyeDistance := |rightEye.x - leftEye.x|
  let normalizedZ := eyeDistance
  let x := (eyeCenterX - 1 / 2) * 30 * s.scaleX
  let y := (1 / 2 - eyeCenterY) * 20 * s.scaleY
  let z := 65 - (normalizedZ - 1 / 20) * 200 * s.scaleZ
  let headPos : HeadPosition3 :=
    { x := x - s.offsetX
      y := y - s.offsetY
      z := max 30 (min 150 (z - s.offsetZ)) }
  (headPos, { s with lastValidHeadPos := some headPos })

/-- `FaceTracker.processResults` on any frame: with no face it emits the
last valid head position (which may be `null`) and leaves the state
unchanged — this variant re-emits indefinitely, with no 500 ms window. -/
def processResults (s : P1State) (det : Option Landmarks) :
    Option HeadPosition3 × P1State :=
  match det with
  | none => (s.lastValidHeadPos, s)
  | some landmarks =>
    let (headPos, s') := processResultsFace s landmarks
    (some headPos, s')

/-- `recenter` of the `processResults` variant (same logic as the main
variant). -/
def P1State.recenter (s : P1State) : P1State :=
  match s.lastValidHeadPos with
  | some p => { s with offsetX := p.x, offsetY := p.y, offsetZ := p.z }
  | none => s

/-! ## Auxiliary definitions for the statements -/

/-- Consistency of the screen-quad cache: whatever is stored is the quad of
the stored calibration's dimensions.  Holds for the startup state (`none`)
and is preserved by every call (proved below). -/
def QuadCacheOK (c : QuadCache) : Prop :=
  ∀ cal quad, c = some (cal, quad) →
    quad = screenQuadOf cal.screenWidthCm cal.screenHeightCm

instance : DecidablePred QuadCacheOK := fun c =>
  match c with
  | none =>
    isTrue (fun _ _ h => by cases h)
  | some (cal, quad) =>
    if h : quad = screenQuadOf cal.screenWidthCm cal.screenHeightCm then
      isTrue (fun cal' quad' h' => by
        cases h'
        exact h)
    else
      isFalse (fun hall => h (hall cal quad rfl))

/-- A landmark frame with every landmark at the image centre: the two eye
landmarks coincide, so the measured inter-pupillary distance is zero. -/
def lmsDegenerate : Landmarks := fun _ => ⟨1 / 2, 1 / 2⟩

/-- A landmark frame whose eye landmarks are `0.2` apart horizontally
(IPD twice the reference value, i.e. a face at half the reference
distance). -/
def lmsWide : Landmarks := fun n =>
  if n = 263 then ⟨3 / 5, 1 / 2⟩ else if n = 33 then ⟨2 / 5, 1 / 2⟩ else ⟨1 / 2, 1 / 2⟩

/-! ## Helper lemmas -/

/-- `Rat.sqrt` evaluates exactly on squares of non-negative rationals. -/
lemma ratSqrt_of_sq (a q : ℚ) (hq : 0 ≤ q) (h : a = q * q) : Rat.sqrt a = q := by
  rw [h, Rat.sqrt_eq, abs_of_nonneg hq]

/-- One filter call holds a sample afterwards exactly as predicted by the
`updatedSinceReset` transition. -/
lemma EMAFilter.step_value_isSome (f : EMAFilter) (op : EMAOp) :
    (f.step op).value.isSome =
      (match op with
       | .update _ => true
       | .reset => false
       | .setAlpha _ => f.value.isSome) := by
  cases op with
  | update v =>
    cases hv : f.value <;> simp [EMAFilter.step, EMAFilter.update, hv]
  | reset => simp [EMAFilter.step, EMAFilter.reset]
  | setAlpha a => simp [EMAFilter.step, EMAFilter.setAlpha]

/-- A run of filter calls holds a sample afterwards iff `updatedSinceReset`
says so. -/
lemma EMAFilter.run_value_isSome (ops : List EMAOp) :
    ∀ f : EMAFilter, (f.run ops).value.isSome = updatedSinceReset f.value.isSome ops := by
  induction ops with
  | nil => intro f; rfl
  | cons op rest ih =>
    intro f
    simp only [EMAFilter.run, updatedSinceReset]
    rw [ih, EMAFilter.step_value_isSome]

/-- C6: the first `update(v)` after construction or after `reset()` stores
`v` exactly (no blending) and returns exactly `v`, regardless of any prior
history, and every subsequent `update(n)` returns
`alpha*n + (1-alpha)*previousValue`. -/
theorem c6_first_update_exact_then_blend :
    (∀ (f : EMAFilter) (v : ℚ), f.value = none →
        f.update v = (v, { f with value := some v })) ∧
    (∀ (f : EMAFilter) (v : ℚ), (f.reset.update v).1 = v) ∧
    (∀ (alpha v : ℚ), ((EMAFilter.mk' alpha).update v).1 = v) ∧
    (∀ (f : EMAFilter) (p n : ℚ), f.value = some p →
        f.update n = (f.alpha * n + (1 - f.alpha) * p,
          { f with value := some (f.alpha * n + (1 - f.alpha) * p) })) := by
  refine ⟨?_, ?_, ?_, ?_⟩
  · intro f v hv
    simp [EMAFilter.update, hv]
  · intro f v
    simp [EMAFilter.update, EMAFilter.reset]
  · intro alpha v
    simp [EMAFilter.update, EMAFilter.mk']
  · intro f p n hp
    simp [EMAFilter.update, hp]

theorem c6_witness :
    (⟨1 / 2, none⟩ : EMAFilter).update 5 = (5, ⟨1 / 2, some 5⟩) ∧
    ((⟨1 / 2, some 3⟩ : EMAFilter).update 7).1 = 1 / 2 * 7 + (1 - 1 / 2) * 3 :=
  ⟨c6_first_update_exact_then_blend.1 ⟨1 / 2, none⟩ 5 rfl,
   congrArg Prod.fst (c6_first_update_exact_then_blend.2.2.2 ⟨1 / 2, some 3⟩ 3 7 rfl)⟩

/-- C8: after any history of calls on a freshly constructed filter,
`getValue()` returns `null` if and only if no `update` has occurred since
construction or since the last `reset()`; otherwise it returns the current
smoothed value (the accumulator). -/
theorem c8_getValue_none_iff_no_update_since_reset (alpha : ℚ) (ops : List EMAOp) :
    ((EMAFilter.mk' alpha).run ops).getValue = none ↔
      updatedSinceReset false ops = false := by
  have h := EMAFilter.run_value_isSome ops (EMAFilter.mk' alpha)
  have hinit : (EMAFilter.mk' alpha).value.isSome = false := rfl
  rw [hinit] at h
  rw [EMAFilter.getValue, ← Option.not_isSome_iff_eq_none, h]
  simp

/-- The state after a no-detection frame: only `faceLostTime` changes. -/
lemma detectStep_absent_state (tf : ℚ) (a2 : ℚ → ℚ → ℚ) (s : TrackerState) (now : ℚ) :
    (detectStep tf a2 s now none).2 =
      { s with faceLostTime := if s.faceLostTime = 0 then now else s.faceLostTime } := by
  rw [detectStep]
  cases s.lastValidPosition with
  | none => rfl
  | some p => by_cases h : now - (if s.faceLostTime = 0 then now else s.faceLostTime) < 500 <;>
      simp [h]

/-- A run of no-detection frames never produces a valid position and never
touches the recenter offsets. -/
lemma detectRun_absent (tf : ℚ) (a2 : ℚ → ℚ → ℚ) (frames : List Frame) :
    ∀ s : TrackerState, (∀ f ∈ frames, f.det = none) →
      (detectRun tf a2 s frames).lastValidPosition = s.lastValidPosition ∧
      (detectRun tf a2 s frames).offsetX = s.offsetX ∧
      (detectRun tf a2 s frames).offsetY = s.offsetY ∧
      (detectRun tf a2 s frames).offsetZ = s.offsetZ := by
  induction frames with
  | nil => intro s _; exact ⟨rfl, rfl, rfl, rfl⟩
  | cons fr rest ih =>
    intro s habs
    have hfr : fr.det = none := habs fr (List.mem_cons_self fr rest)
    have hrest : ∀ f ∈ rest, f.det = none := fun f hf => habs f (List.mem_cons_of_mem fr hf)
    rw [detectRun, hfr, detectStep_absent_state]
    exact ih _ hrest

/-- C9: as long as no frame has produced a valid position, the tracker's
`lastValidPosition` is still `null`, so `recenter()` is a no-op — the
stored offsets remain at their initial zeros (both `FaceTracker` variants;
the `processResults` variant's `recenter` is the same guarded match). -/
theorem c9_recenter_noop_before_first_position (tf : ℚ) (a2 : ℚ → ℚ → ℚ)
    (frames : List Frame) (habs : ∀ f ∈ frames, f.det = none) :
    TrackerState.recenter (detectRun tf a2 TrackerState.init frames) =
        detectRun tf a2 TrackerState.init frames ∧
    (detectRun tf a2 TrackerState.init frames).offsetX = 0 ∧
    (detectRun tf a2 TrackerState.init frames).offsetY = 0 ∧
    (detectRun tf a2 TrackerState.init frames).offsetZ = 0 ∧
    P1State.recenter P1State.init = P1State.init := by
  obtain ⟨hlast, hx, hy, hz⟩ := detectRun_absent tf a2 frames TrackerState.init habs
  refine ⟨?_, ?_, ?_, ?_, rfl⟩
  · rw [TrackerState.recenter, hlast]
    rfl
  · simpa using hx
  · simpa using hy
  · simpa using hz

theorem c9_witness :
    TrackerState.recenter (detectRun 0 (fun _ _ => 0) TrackerState.init [⟨100, none⟩]) =
        detectRun 0 (fun _ _ => 0) TrackerState.init [⟨100, none⟩] ∧
    (detectRun 0 (fun _ _ => 0) TrackerState.init [⟨100, none⟩]).offsetX = 0 := by
  have h := c9_recenter_noop_before_first_position 0 (fun _ _ => 0) [⟨100, none⟩]
    (by intro f hf; rw [List.mem_singleton] at hf; rw [hf])
  exact ⟨h.1, h.2.1⟩

/-- C10: once the cache holds an entry, a call whose calibration matches the
cached `screenWidthCm`/`screenHeightCm` returns exactly the stored
`ScreenQuad` instance with the cache state unchanged, even when
`viewerDistanceCm`, `near` or `far` differ from the cached calibration. -/
theorem c10_cache_hit_returns_cached_instance (cal0 cal : CalibrationParams)
    (quad : ScreenQuad)
    (hw : cal0.screenWidthCm = cal.screenWidthCm)
    (hh : cal0.screenHeightCm = cal.screenHeightCm) :
    buildScreenQuadCached cal (some (cal0, quad)) = (quad, some (cal0, quad)) := by
  simp [buildScreenQuadCached, hw, hh]

theorem c10_witness :
    buildScreenQuadCached ⟨60, 34, 99, 1, 7⟩
        (some (⟨60, 34, 65, 1 / 10, 100⟩, screenQuadOf 60 34)) =
      (screenQuadOf 60 34, some (⟨60, 34, 65, 1 / 10, 100⟩, screenQuadOf 60 34)) :=
  c10_cache_hit_returns_cached_instance ⟨60, 34, 65, 1 / 10, 100⟩ ⟨60, 34, 99, 1, 7⟩
    (screenQuadOf 60 34) rfl rfl

/-- One call on a consistent cache: the returned quad is the one determined
by the requested dimensions, and the cache stays consistent with an entry
for those dimensions. -/
lemma buildScreenQuadCached_ok (cal : CalibrationParams) (cache : QuadCache)
    (hok : QuadCacheOK cache) :
    (buildScreenQuadCached cal cache).1 =
        screenQuadOf cal.screenWidthCm cal.screenHeightCm ∧
    ∃ c0, (buildScreenQuadCached cal cache).2 = some (c0, (buildScreenQuadCached cal cache).1) ∧
      c0.screenWidthCm = cal.screenWidthCm ∧ c0.screenHeightCm = cal.screenHeightCm := by
  match hc : cache with
  | none => exact ⟨rfl, cal, rfl, rfl, rfl⟩
  | some (c0, q0) =>
    have hq0 : q0 = screenQuadOf c0.screenWidthCm c0.screenHeightCm := hok c0 q0 rfl
    by_cases hdim : c0.screenWidthCm = cal.screenWidthCm ∧ c0.screenHeightCm = cal.screenHeightCm
    · rw [buildScreenQuadCached]
      rw [if_pos hdim]
      exact ⟨by rw [hq0, hdim.1, hdim.2], c0, rfl, hdim.1, hdim.2⟩
    · rw [buildScreenQuadCached, if_neg hdim]
      exact ⟨rfl, cal, rfl, rfl, rfl⟩

/-- The corner geometry determines and is determined by the dimensions. -/
lemma screenQuadOf_inj (w h w' h' : ℚ)
    (he : screenQuadOf w h = screenQuadOf w' h') : w = w' ∧ h = h' := by
  have hx := congrArg (fun q => q.pb.x) he
  have hy := congrArg (fun q => q.pc.y) he
  simp [screenQuadOf] at hx hy
  constructor <;> linarith

/-- C7: from any consistent cache state, two successive calls with the same
width/height return geometrically identical corner points — both equal to
the quad determined purely by `(width, height)` with the cm→m division by
100 — while any change of either dimension yields different corners. -/
theorem c7_cache_geometry (cache : QuadCache) (hok : QuadCacheOK cache)
    (cal : CalibrationParams) (w' h' : ℚ)
    (hne : w' ≠ cal.screenWidthCm ∨ h' ≠ cal.screenHeightCm) :
    (buildScreenQuadCached cal cache).1 =
        screenQuadOf cal.screenWidthCm cal.screenHeightCm ∧
    (buildScreenQuadCached cal (buildScreenQuadCached cal cache).2).1 =
        (buildScreenQuadCached cal cache).1 ∧
    screenQuadOf w' h' ≠ screenQuadOf cal.screenWidthCm cal.screenHeightCm := by
  obtain ⟨h1, c0, hstate, hw0, hh0⟩ := buildScreenQuadCached_ok cal cache hok
  refine ⟨h1, ?_, ?_⟩
  · rw [hstate, buildScreenQuadCached, if_pos ⟨hw0, hh0⟩]
  · intro he
    obtain ⟨hw, hh⟩ := screenQuadOf_inj w' h' cal.screenWidthCm cal.screenHeightCm he
    rcases hne with h | h
    · exact h hw
    · exact h hh

theorem c7_witness :
    (buildScreenQuadCached ⟨60, 34, 65, 1 / 10, 100⟩ (none : QuadCache)).1 =
        screenQuadOf 60 34 ∧
    screenQuadOf 50 34 ≠ screenQuadOf 60 34 := by
  have h := c7_cache_geometry (none : QuadCache) (fun _ _ hx => by cases hx)
    ⟨60, 34, 65, 1 / 10, 100⟩ 50 34 (Or.inl (by norm_num))
  exact ⟨h.1, h.2.2⟩

/-! ## The depth estimate -/

lemma ratSqrt_zero : Rat.sqrt 0 = 0 := ratSqrt_of_sq 0 0 le_rfl (by norm_num)

/-- The `JsNum` depth pipeline always lands on a finite value: division of
the positive reference IPD by zero gives `+Infinity`, which `Math.min`
then replaces by 150. -/
lemma zCmJs_eq (ipd : ℚ) :
    zCmJs ipd =
      JsNum.fin (if ipd = 0 then 150 else max 30 (min 150 (1 / 10 / ipd * 60))) := by
  by_cases h : ipd = 0
  · subst h
    norm_num [zCmJs, JsNum.div, JsNum.mul, JsNum.jmin, JsNum.jmax]
  · norm_num [zCmJs, JsNum.div, JsNum.mul, JsNum.jmin, JsNum.jmax, h]

lemma computeZCm_eq (ipd : ℚ) :
    computeZCm ipd = if ipd = 0 then 150 else max 30 (min 150 (1 / 10 / ipd * 60)) := by
  simp [computeZCm, zCmJs_eq]

/-- C5 (amended): the depth division never leaks NaN or an infinity past
the clamp — for every measured IPD the pipeline produces the finite
`computeZCm` value, and at IPD = 0 it produces exactly 150 (a position is
emitted; the frame is not treated as NotFound). -/
theorem c5_zero_ipd_clamped_not_notfound :
    (∀ ipd : ℚ, zCmJs ipd = JsNum.fin (computeZCm ipd)) ∧
    zCmJs 0 = JsNum.fin 150 ∧ computeZCm 0 = 150 := by
  refine ⟨fun ipd => by rw [zCmJs_eq, computeZCm_eq], ?_, ?_⟩
  · rw [zCmJs_eq]
    norm_num
  · rw [computeZCm_eq]
    norm_num

/-- C5 counterexample to the claim as stated: on a detected frame whose eye
landmarks coincide (measured IPD = 0), the estimator emits a position (with
depth clamped to 150, smoothed from 0 to 105) rather than reporting
NotFound. -/
theorem c5_counterexample :
    (detectStep (577 / 1000) (fun _ _ => 0) TrackerState.init 0 (some lmsDegenerate)).1 =
      some ⟨0, 0, 105, 0, 0, 0⟩ ∧
    (detectStep (577 / 1000) (fun _ _ => 0) TrackerState.init 0 (some lmsDegenerate)).1 ≠
      none := by
  have h1 : (detectStep (577 / 1000) (fun _ _ => 0) TrackerState.init 0
      (some lmsDegenerate)).1 = some ⟨0, 0, 105, 0, 0, 0⟩ := by
    norm_num [detectStep, processLandmarks, lmsDegenerate, computeZCm_eq, ratSqrt_zero,
      TrackerState.init]
  exact ⟨h1, by rw [h1]; exact Option.some_ne_none _⟩

/-- C2 (amended): the clamp keeps the *depth estimate* within [30, 150] for
every measured IPD, and the `processResults` variant also clamps its
*emitted* z into [30, 150]; the main-variant emitted z is the smoothed,
recentered value and can leave the range (see the counterexample). -/
theorem c2_depth_clamp :
    (∀ ipd : ℚ, 30 ≤ computeZCm ipd ∧ computeZCm ipd ≤ 150) ∧
    (∀ (s : P1State) (lms : Landmarks),
      30 ≤ (processResultsFace s lms).1.z ∧ (processResultsFace s lms).1.z ≤ 150) := by
  constructor
  · intro ipd
    rw [computeZCm_eq]
    by_cases h : ipd = 0
    · rw [if_pos h]
      norm_num
    · rw [if_neg h]
      exact ⟨le_max_left _ _, max_le (by norm_num) (min_le_left _ _)⟩
  · intro s lms
    simp only [processResultsFace]
    exact ⟨le_max_left _ _, max_le (by norm_num) (min_le_left _ _)⟩

/-- C2 counterexample to the claim as stated: on the first processed frame
with a wide IPD (clamped depth estimate 30), the emitted z is
`0.7 * 30 + 0.3 * 0 = 21`, outside [30, 150], because the smoothing
accumulator starts at 0 and the clamp precedes the smoothing. -/
theorem c2_counterexample :
    (processLandmarks (577 / 1000) (fun _ _ => 0) TrackerState.init lmsWide).1.z = 21 ∧
    (processLandmarks (577 / 1000) (fun _ _ => 0) TrackerState.init lmsWide).1.z < 30 := by
  have hsq : Rat.sqrt (1 / 25) = 1 / 5 := ratSqrt_of_sq _ _ (by norm_num) (by norm_num)
  constructor
  · norm_num [processLandmarks, lmsWide, computeZCm_eq, hsq, TrackerState.init]
  · norm_num [processLandmarks, lmsWide, computeZCm_eq, hsq, TrackerState.init]

/-! ## Screen-basis geometry -/

lemma normalize_xAxis (a : ℚ) (ha : 0 < a) : Vec3.normalize ⟨a, 0, 0⟩ = ⟨1, 0, 0⟩ := by
  have hl : Vec3.length ⟨a, 0, 0⟩ = a := by
    rw [Vec3.length, Vec3.lengthSq]
    exact ratSqrt_of_sq _ a ha.le (by ring)
  rw [Vec3.normalize, hl, if_neg ha.ne', Vec3.divScalar]
  simp [div_self ha.ne']

lemma normalize_yAxis (a : ℚ) (ha : 0 < a) : Vec3.normalize ⟨0, a, 0⟩ = ⟨0, 1, 0⟩ := by
  have hl : Vec3.length ⟨0, a, 0⟩ = a := by
    rw [Vec3.length, Vec3.lengthSq]
    exact ratSqrt_of_sq _ a ha.le (by ring)
  rw [Vec3.normalize, hl, if_neg ha.ne', Vec3.divScalar]
  simp [div_self ha.ne']

lemma normalize_zUnit : Vec3.normalize ⟨0, 0, 1⟩ = ⟨0, 0, 1⟩ := by
  have hl : Vec3.length ⟨0, 0, 1⟩ = 1 := by
    rw [Vec3.length, Vec3.lengthSq]
    exact ratSqrt_of_sq _ 1 one_pos.le (by ring)
  rw [Vec3.normalize, hl, if_neg one_ne_zero, Vec3.divScalar]
  simp

/-- For positive dimensions the screen basis of the axis-aligned quad is the
standard basis. -/
lemma basis_screenQuadOf (W H : ℚ) (hW : 0 < W) (hH : 0 < H) :
    vrOf (screenQuadOf W H) = ⟨1, 0, 0⟩ ∧ vuOf (screenQuadOf W H) = ⟨0, 1, 0⟩ ∧
    vn0Of (screenQuadOf W H) = ⟨0, 0, 1⟩ := by
  have hpbpa : (screenQuadOf W H).pb.sub (screenQuadOf W H).pa = ⟨W / 100, 0, 0⟩ := by
    simp [screenQuadOf, Vec3.sub]
    ring
  have hpcpa : (screenQuadOf W H).pc.sub (screenQuadOf W H).pa = ⟨0, H / 100, 0⟩ := by
    simp [screenQuadOf, Vec3.sub]
    ring
  have hvr : vrOf (screenQuadOf W H) = ⟨1, 0, 0⟩ := by
    rw [vrOf, hpbpa]
    exact normalize_xAxis _ (by positivity)
  have hvu : vuOf (screenQuadOf W H) = ⟨0, 1, 0⟩ := by
    rw [vuOf, hpcpa]
    exact normalize_yAxis _ (by positivity)
  refine ⟨hvr, hvu, ?_⟩
  rw [vn0Of, hvr, hvu]
  have hc : Vec3.cross ⟨1, 0, 0⟩ ⟨0, 1, 0⟩ = ⟨0, 0, 1⟩ := by
    simp [Vec3.cross]
  rw [hc, normalize_zUnit]

/-- The (possibly flipped) screen normal of the axis-aligned quad points at
the half-space containing the eye. -/
lemma vnOf_screenQuadOf (W H : ℚ) (hW : 0 < W) (hH : 0 < H) (pe : Vec3) :
    vnOf (screenQuadOf W H) pe = if pe.z < 0 then ⟨0, 0, -1⟩ else ⟨0, 0, 1⟩ := by
  obtain ⟨-, -, hvn0⟩ := basis_screenQuadOf W H hW hH
  rw [vnOf, hvn0]
  have hdot : Vec3.dot ⟨0, 0, 1⟩ (pe.sub (screenQuadOf W H).pa) = pe.z := by
    simp [Vec3.dot, Vec3.sub, screenQuadOf]
  rw [hdot]
  by_cases h : pe.z < 0
  · rw [if_pos h, if_pos h]
    rfl
  · rw [if_neg h, if_neg h]

/-- For the axis-aligned quad, the eye-to-plane distance computed by both
builders is `|pe.z|`: a *negative* eye z still yields a positive `d`
because the normal has been flipped towards the eye. -/
lemma dOf_screenQuadOf (W H : ℚ) (hW : 0 < W) (hH : 0 < H) (pe : Vec3) :
    dOf (screenQuadOf W H) pe = |pe.z| := by
  rw [dOf, vnOf_screenQuadOf W H hW hH]
  by_cases h : pe.z < 0
  · rw [if_pos h, abs_of_neg h]
    simp [Vec3.dot, Vec3.sub, screenQuadOf]
  · rw [if_neg h, abs_of_nonneg (not_lt.mp h)]
    simp [Vec3.dot, Vec3.sub, screenQuadOf]

/-- C1 (amended): with the eye exactly on the screen plane (`eyePos.z = 0`)
both projection builders compute `d = 0`, take the skip branch, and return
the camera completely unchanged (in particular no NaN/Inf is written).  For
`eyePos.z < 0` the claim fails: the normal flip makes `d = |z| > 0` and the
update proceeds — see the counterexample. -/
theorem c1_skip_exactly_on_plane (camera : Camera) (eyePos : EyePosition)
    (cal : CalibrationParams) (hW : 0 < cal.screenWidthCm) (hH : 0 < cal.screenHeightCm)
    (hz : eyePos.z = 0) :
    updateQuadReprojection camera eyePos cal = camera ∧
    updateOffAxisProjection camera eyePos cal = camera := by
  have hd : dOf (buildScreenQuad cal) (peOf eyePos) = 0 := by
    rw [buildScreenQuad, dOf_screenQuadOf _ _ hW hH, peOf]
    simp [hz]
  constructor
  · simp only [updateQuadReprojection]
    rw [hd, if_pos le_rfl]
  · simp only [updateOffAxisProjection]
    rw [hd, if_pos le_rfl]

theorem c1_witness :
    updateQuadReprojection
        ⟨true, Matrix4.identity, Matrix4.identity, Matrix4.identity, Matrix4.identity,
          ⟨0, 0, 0⟩⟩ ⟨5, -3, 0⟩ ⟨60, 34, 65, 1 / 10, 100⟩ =
      ⟨true, Matrix4.identity, Matrix4.identity, Matrix4.identity, Matrix4.identity,
        ⟨0, 0, 0⟩⟩ ∧
    updateOffAxisProjection
        ⟨true, Matrix4.identity, Matrix4.identity, Matrix4.identity, Matrix4.identity,
          ⟨0, 0, 0⟩⟩ ⟨5, -3, 0⟩ ⟨60, 34, 65, 1 / 10, 100⟩ =
      ⟨true, Matrix4.identity, Matrix4.identity, Matrix4.identity, Matrix4.identity,
        ⟨0, 0, 0⟩⟩ :=
  c1_skip_exactly_on_plane _ ⟨5, -3, 0⟩ ⟨60, 34, 65, 1 / 10, 100⟩
    (by norm_num) (by norm_num) rfl

/-- C1 counterexample to the claim as stated: with previously-installed
identity matrices and `eyePos.z = -65 < 0`, `updateQuadReprojection` does
NOT skip — the flipped normal gives `d = 0.65 > 0`, and the camera's
projection matrix is rewritten (its first entry becomes 13/6 ≠ 1). -/
theorem c1_counterexample :
    updateQuadReprojection
        ⟨true, Matrix4.identity, Matrix4.identity, Matrix4.identity, Matrix4.identity,
          ⟨0, 0, 0⟩⟩ ⟨0, 0, -65⟩ ⟨60, 34, 65, 1 / 10, 100⟩ ≠
      ⟨true, Matrix4.identity, Matrix4.identity, Matrix4.identity, Matrix4.identity,
        ⟨0, 0, 0⟩⟩ ∧
    (updateQuadReprojection
        ⟨true, Matrix4.identity, Matrix4.identity, Matrix4.identity, Matrix4.identity,
          ⟨0, 0, 0⟩⟩ ⟨0, 0, -65⟩ ⟨60, 34, 65, 1 / 10, 100⟩).projectionMatrix.n11 = 13 / 6 := by
  have hpe : peOf ⟨0, 0, -65⟩ = ⟨0, 0, -13 / 20⟩ := by
    rw [peOf]
    norm_num
  have hd : dOf (buildScreenQuad ⟨60, 34, 65, 1 / 10, 100⟩) (peOf ⟨0, 0, -65⟩) = 13 / 20 := by
    rw [buildScreenQuad, dOf_screenQuadOf _ _ (by norm_num) (by norm_num), hpe]
    norm_num
  have hvr : vrOf (buildScreenQuad ⟨60, 34, 65, 1 / 10, 100⟩) = ⟨1, 0, 0⟩ := by
    rw [buildScreenQuad]
    exact (basis_screenQuadOf 60 34 (by norm_num) (by norm_num)).1
  have hcond : ¬ dOf (buildScreenQuad ⟨60, 34, 65, 1 / 10, 100⟩) (peOf ⟨0, 0, -65⟩) ≤ 0 := by
    rw [hd]
    norm_num
  have hn11 : (updateQuadReprojection
      ⟨true, Matrix4.identity, Matrix4.identity, Matrix4.identity, Matrix4.identity,
        ⟨0, 0, 0⟩⟩ ⟨0, 0, -65⟩ ⟨60, 34, 65, 1 / 10, 100⟩).projectionMatrix.n11 = 13 / 6 := by
    simp only [updateQuadReprojection]
    rw [if_neg hcond]
    simp only [projMatrixOf, lOf, rOf, hvr, hd]
    rw [hpe]
    norm_num [Vec3.dot, Vec3.sub, buildScreenQuad, screenQuadOf]
  refine ⟨?_, hn11⟩
  intro heq
  have := congrArg (fun c => c.projectionMatrix.n11) heq
  simp only at this
  rw [hn11] at this
  norm_num [Matrix4.identity] at this

/-- C3: with eye at `(0, 0, viewerDistanceCm)` on the screen axis, the
builder does not skip (`d > 0`), the frustum bounds are exactly symmetric
(`l = -r`, `b = -t`), the asymmetry entries of the projection matrix vanish
(as in a standard symmetric perspective matrix for this screen and
distance), and the camera's installed projection matrix is precisely the
matrix assembled from those bounds. -/
theorem c3_symmetric_frustum (cal : CalibrationParams)
    (hW : 0 < cal.screenWidthCm) (hH : 0 < cal.screenHeightCm)
    (hD : 0 < cal.viewerDistanceCm) (_hnear : 0 < cal.near) :
    ∃ l r b t d,
      d = dOf (buildScreenQuad cal) (peOf ⟨0, 0, cal.viewerDistanceCm⟩) ∧ 0 < d ∧
      l = lOf (buildScreenQuad cal) (peOf ⟨0, 0, cal.viewerDistanceCm⟩) cal.near d ∧
      r = rOf (buildScreenQuad cal) (peOf ⟨0, 0, cal.viewerDistanceCm⟩) cal.near d ∧
      b = bOf (buildScreenQuad cal) (peOf ⟨0, 0, cal.viewerDistanceCm⟩) cal.near d ∧
      t = tOf (buildScreenQuad cal) (peOf ⟨0, 0, cal.viewerDistanceCm⟩) cal.near d ∧
      l = -r ∧ b = -t ∧
      (projMatrixOf l r b t cal.near cal.far).n13 = 0 ∧
      (projMatrixOf l r b t cal.near cal.far).n23 = 0 ∧
      ∀ camera : Camera,
        (updateQuadReprojection camera ⟨0, 0, cal.viewerDistanceCm⟩ cal).projectionMatrix =
          projMatrixOf l r b t cal.near cal.far := by
  obtain ⟨hvr, hvu, -⟩ := basis_screenQuadOf cal.screenWidthCm cal.screenHeightCm hW hH
  have hpez : (peOf ⟨0, 0, cal.viewerDistanceCm⟩).z = cal.viewerDistanceCm / 100 := rfl
  have hd : dOf (buildScreenQuad cal) (peOf ⟨0, 0, cal.viewerDistanceCm⟩) =
      cal.viewerDistanceCm / 100 := by
    rw [buildScreenQuad, dOf_screenQuadOf _ _ hW hH, hpez, abs_of_pos (by positivity)]
  have hdpos : 0 < dOf (buildScreenQuad cal) (peOf ⟨0, 0, cal.viewerDistanceCm⟩) := by
    rw [hd]
    positivity
  refine ⟨_, _, _, _, _, rfl, hdpos, rfl, rfl, rfl, rfl, ?_, ?_, ?_, ?_, ?_⟩
  · rw [lOf, rOf, buildScreenQuad, hvr]
    simp only [Vec3.dot, Vec3.sub, screenQuadOf, peOf]
    ring
  · rw [bOf, tOf, buildScreenQuad, hvu]
    simp only [Vec3.dot, Vec3.sub, screenQuadOf, peOf]
    ring
  · have hrl : lOf (buildScreenQuad cal) (peOf ⟨0, 0, cal.viewerDistanceCm⟩) cal.near
        (dOf (buildScreenQuad cal) (peOf ⟨0, 0, cal.viewerDistanceCm⟩)) +
        rOf (buildScreenQuad cal) (peOf ⟨0, 0, cal.viewerDistanceCm⟩) cal.near
        (dOf (buildScreenQuad cal) (peOf ⟨0, 0, cal.viewerDistanceCm⟩)) = 0 := by
      rw [lOf, rOf, buildScreenQuad, hvr]
      simp only [Vec3.dot, Vec3.sub, screenQuadOf, peOf]
      ring
    simp only [projMatrixOf]
    rw [add_comm] at hrl
    rw [hrl, zero_div]
  · have hbt : tOf (buildScreenQuad cal) (peOf ⟨0, 0, cal.viewerDistanceCm⟩) cal.near
        (dOf (buildScreenQuad cal) (peOf ⟨0, 0, cal.viewerDistanceCm⟩)) +
        bOf (buildScreenQuad cal) (peOf ⟨0, 0, cal.viewerDistanceCm⟩) cal.near
        (dOf (buildScreenQuad cal) (peOf ⟨0, 0, cal.viewerDistanceCm⟩)) = 0 := by
      rw [bOf, tOf, buildScreenQuad, hvu]
      simp only [Vec3.dot, Vec3.sub, screenQuadOf, peOf]
      ring
    simp only [projMatrixOf]
    rw [hbt, zero_div]
  · intro camera
    simp only [updateQuadReprojection]
    rw [if_neg (not_le.mpr hdpos)]

theorem c3_witness :
    0 < dOf (buildScreenQuad ⟨60, 34, 65, 1 / 10, 100⟩) (peOf ⟨0, 0, 65⟩) ∧
    lOf (buildScreenQuad ⟨60, 34, 65, 1 / 10, 100⟩) (peOf ⟨0, 0, 65⟩) (1 / 10)
        (dOf (buildScreenQuad ⟨60, 34, 65, 1 / 10, 100⟩) (peOf ⟨0, 0, 65⟩)) =
      -(rOf (buildScreenQuad ⟨60, 34, 65, 1 / 10, 100⟩) (peOf ⟨0, 0, 65⟩) (1 / 10)
        (dOf (buildScreenQuad ⟨60, 34, 65, 1 / 10, 100⟩) (peOf ⟨0, 0, 65⟩))) := by
  obtain ⟨l, r, b, t, d, hdq, hdpos, hlq, hrq, hbq, htq, hlr, hbt, -, -, -⟩ :=
    c3_symmetric_frustum ⟨60, 34, 65, 1 / 10, 100⟩
      (by norm_num) (by norm_num) (by norm_num) (by norm_num)
  subst hdq hlq hrq hbq htq
  exact ⟨hdpos, hlr⟩

/-! ## The 500 ms face-lost window -/

/-- A detected frame stores the processed position, clears `faceLostTime`
and emits the position. -/
lemma detectStep_present (tf : ℚ) (a2 : ℚ → ℚ → ℚ) (s : TrackerState) (t0 : ℚ)
    (lms : Landmarks) :
    detectStep tf a2 s t0 (some lms) =
      (some (processLandmarks tf a2 s lms).1,
       { (processLandmarks tf a2 s lms).2 with
         lastValidPosition := some (processLandmarks tf a2 s lms).1
         faceLostTime := 0 }) := rfl

/-- An absent frame on a tracker already counting lost time keeps the state
unchanged. -/
lemma detectStep_absent_keep (tf : ℚ) (a2 : ℚ → ℚ → ℚ) (s : TrackerState) (now : ℚ)
    (hflt : s.faceLostTime ≠ 0) :
    (detectStep tf a2 s now none).2 = s := by
  rw [detectStep_absent_state, if_neg hflt]

/-- Any run of absent frames leaves a lost-counting tracker state fixed. -/
lemma detectRun_absentTimes (tf : ℚ) (a2 : ℚ → ℚ → ℚ) (ts : List ℚ) :
    ∀ s : TrackerState, s.faceLostTime ≠ 0 →
      detectRun tf a2 s (ts.map fun u => (⟨u, none⟩ : Frame)) = s := by
  induction ts with
  | nil => intro s _; rfl
  | cons u rest ih =>
    intro s h
    rw [List.map_cons, detectRun]
    show detectRun tf a2 (detectStep tf a2 s u none).2 _ = s
    rw [detectStep_absent_keep tf a2 s u h]
    exact ih s h

/-- Emission on an absent frame of a lost-counting tracker holding a valid
position: re-emit within 500 ms of `faceLostTime`, else NotFound. -/
lemma detectStep_absent_out (tf : ℚ) (a2 : ℚ → ℚ → ℚ) (s : TrackerState) (now : ℚ)
    (p : HeadPosition) (hflt : s.faceLostTime ≠ 0) (hlast : s.lastValidPosition = some p) :
    (detectStep tf a2 s now none).1 =
      if now - s.faceLostTime < 500 then some p else none := by
  simp only [detectStep, hlast, if_neg hflt]
  by_cases h : now - s.faceLostTime < 500 <;> simp [h]

/-- C4 (amended): after a frame with a detected face and then a first
absent frame at time `t1`, the estimator re-emits the last produced
position on that first absent frame, and on any later absent frame at time
`t` (after arbitrarily many intervening absent frames) it re-emits that
position exactly when `t - t1 < 500`, i.e. when fewer than 500 ms have
elapsed since the face was *first reported absent* — not since the position
was *produced* — and emits NotFound otherwise. -/
theorem c4_window_measured_from_loss (tf : ℚ) (a2 : ℚ → ℚ → ℚ) (s : TrackerState)
    (lms : Landmarks) (t0 t1 t : ℚ) (ts : List ℚ) (h1 : t1 ≠ 0) :
    (detectStep tf a2 (detectStep tf a2 s t0 (some lms)).2 t1 none).1 =
      some (processLandmarks tf a2 s lms).1 ∧
    (detectStep tf a2
        (detectRun tf a2 (detectStep tf a2 (detectStep tf a2 s t0 (some lms)).2 t1 none).2
          (ts.map fun u => (⟨u, none⟩ : Frame))) t none).1 =
      if t - t1 < 500 then some (processLandmarks tf a2 s lms).1 else none := by
  rw [detectStep_present]
  have hs2 : (detectStep tf a2
      ({ (processLandmarks tf a2 s lms).2 with
         lastValidPosition := some (processLandmarks tf a2 s lms).1
         faceLostTime := 0 } : TrackerState) t1 none).2 =
      { (processLandmarks tf a2 s lms).2 with
        lastValidPosition := some (processLandmarks tf a2 s lms).1
        faceLostTime := t1 } := by
    rw [detectStep_absent_state]
    rfl
  constructor
  · simp [detectStep]
  · rw [hs2, detectRun_absentTimes tf a2 ts _ h1,
      detectStep_absent_out tf a2 _ t (processLandmarks tf a2 s lms).1 h1 rfl]

theorem c4_witness :
    (detectStep 0 (fun _ _ => 0)
        (detectStep 0 (fun _ _ => 0) TrackerState.init 0 (some lmsDegenerate)).2
        100 none).1 =
      some (processLandmarks 0 (fun _ _ => 0) TrackerState.init lmsDegenerate).1 ∧
    (detectStep 0 (fun _ _ => 0)
        (detectStep 0 (fun _ _ => 0)
          (detectStep 0 (fun _ _ => 0) TrackerState.init 0 (some lmsDegenerate)).2
          100 none).2
        650 none).1 = none := by
  have h := c4_window_measured_from_loss 0 (fun _ _ => 0) TrackerState.init lmsDegenerate
    0 100 650 [] (by norm_num)
  refine ⟨h.1, ?_⟩
  have h2 := h.2
  rw [if_neg (by norm_num)] at h2
  simpa using h2

/-- C4 counterexample to the claim as stated: the face is detected once at
time 0 (producing the only valid position), reported absent from time 400
on; at time 700 — 700 ms after the position was produced, well beyond
500 ms — the estimator still re-emits it, because its window is measured
from the loss instant 400, not from when the position was produced. -/
theorem c4_counterexample :
    (detectStep 0 (fun _ _ => 0)
        (detectStep 0 (fun _ _ => 0)
          (detectStep 0 (fun _ _ => 0) TrackerState.init 0 (some lmsDegenerate)).2
          400 none).2
        700 none).1 =
      some (processLandmarks 0 (fun _ _ => 0) TrackerState.init lmsDegenerate).1 ∧
    ¬((700 : ℚ) - 0 < 500) := by
  constructor
  · rw [detectStep_present]
    have hs2 : (detectStep 0 (fun _ _ => 0)
        ({ (processLandmarks 0 (fun _ _ => 0) TrackerState.init lmsDegenerate).2 with
           lastValidPosition :=
             some (processLandmarks 0 (fun _ _ => 0) TrackerState.init lmsDegenerate).1
           faceLostTime := 0 } : TrackerState) 400 none).2 =
        { (processLandmarks 0 (fun _ _ => 0) TrackerState.init lmsDegenerate).2 with
          lastValidPosition :=
            some (processLandmarks 0 (fun _ _ => 0) TrackerState.init lmsDegenerate).1
          faceLostTime := 400 } := by
      rw [detectStep_absent_state]
      rfl
    rw [hs2, detectStep_absent_out 0 (fun _ _ => 0) _ 700
      (processLandmarks 0 (fun _ _ => 0) TrackerState.init lmsDegenerate).1
      (by norm_num) rfl]
    norm_num
  · norm_num
